import Mathlib

/-!
# Workout tracker: record model and session store of `script.js`

A shallow embedding of the classes `Workout`, `Running`, `Cycling` and `App`.

Modelling conventions.

* JavaScript values are the inductive type `JSVal`; an object is its list of own enumerable
  properties in creation order, which is also the order `JSON.stringify` writes them in.
* A finite double is given by the rational number it denotes (`JSNum.fin`); `NaN` and the two
  infinities are separate constructors.  A quotient is rounded to binary64 (`roundDouble`:
  to nearest, ties to even, gradual underflow, overflow to an infinity).  The sign of zero
  is not represented.
* A `Date` object is represented by what the program observes of it: its time value, the
  result of `getMonth()` and the text `toJSON()` produces.
* The `localStorage` slot holds a text.  A text is identified with the value `JSON.parse`
  returns for it (`StoredText.json`), or is unparseable (`StoredText.malformed`).
* A handler that throws leaves the fields it already assigned as they are, so every handler
  returns an `Outcome` together with the resulting `App`.
* Leaflet and the DOM are collaborators: rendering is modelled by whether it completes.
-/

/-! ## Numbers -/

/-- JavaScript numbers: a finite double, given by the rational it denotes, `NaN`, `Infinity`
or `-Infinity`. -/
inductive JSNum where
  | fin (q : ℚ)
  | nan
  | posInf
  | negInf
  deriving DecidableEq

/-- The test `Number.isFinite(inp)`. -/
def JSNum.isFinite : JSNum → Bool
  | .fin _ => true
  | _ => false

/-- The comparison `inp > 0`. -/
def JSNum.gtZero : JSNum → Bool
  | .fin q => decide (0 < q)
  | .posInf => true
  | _ => false

/-- Rounding of a rational to the nearest integer, a tie going to the even one. -/
def roundHalfEven (z : ℚ) : ℤ :=
  if z - ⌊z⌋ < 1 / 2 then ⌊z⌋
  else if 1 / 2 < z - ⌊z⌋ then ⌊z⌋ + 1
  else if ⌊z⌋ % 2 = 0 then ⌊z⌋ else ⌊z⌋ + 1

/-- The exponent of the unit in the last place of the binary64 format at `x`: 52 below the
binary exponent of `x`, and never below the exponent `-1074` of the subnormal numbers. -/
def ulpExponent (x : ℚ) : ℤ :=
  max (Int.log 2 |x| - 52) (-1074)

/-- The binary64 result of an operation whose exact value is `x`: the multiple of the unit
in the last place nearest to `x`, a tie going to the even one, and an infinity once that
multiple reaches `2 ^ 1024`. -/
def roundDouble (x : ℚ) : JSNum :=
  let y : ℚ := (roundHalfEven (|x| / 2 ^ ulpExponent x) : ℚ) * 2 ^ ulpExponent x
  if (2 : ℚ) ^ (1024 : ℕ) ≤ y then (if 0 < x then .posInf else .negInf)
  else .fin (if 0 < x then y else -y)

/-- The operator `/` on numbers. -/
def JSNum.div : JSNum → JSNum → JSNum
  | .nan, _ => .nan
  | _, .nan => .nan
  | .fin a, .fin b =>
    if b = 0 then (if a = 0 then .nan else if 0 < a then .posInf else .negInf)
    else roundDouble (a / b)
  | .fin _, _ => .fin 0
  | .posInf, .fin b => if 0 ≤ b then .posInf else .negInf
  | .negInf, .fin b => if 0 ≤ b then .negInf else .posInf
  | _, _ => .nan

/-! ## Strings -/

/-- The method `s.slice(start)` with one argument. -/
def jsSlice (s : String) (start : Int) : String :=
  let len : Int := s.length
  let k : Nat := if start < 0 then (len + start).toNat else min start.toNat s.length
  String.mk (s.data.drop k)

/-- The expression `s[0]` for a non-empty string `s`: its first character as a string. -/
def jsFirst (s : String) : String :=
  String.mk (s.data.take 1)

/-- The method `s.toUpperCase()` on ASCII text. -/
def toUpperCase (s : String) : String :=
  String.mk (s.data.map Char.toUpper)

/-- The expression `n + ''` for a non-negative integer below `10 ^ 21`: its decimal digits. -/
def numberToString (n : Nat) : String :=
  Nat.repr n

/-! ## Values -/

/-- A `Date` object, as observed by the program. -/
structure JSDate where
  /-- Milliseconds since the epoch. -/
  time : Nat
  /-- The result of `getMonth()`. -/
  month : Nat
  /-- The text `toJSON()` returns. -/
  isoText : String
  deriving DecidableEq

/-- JavaScript values. -/
inductive JSVal where
  | undefined
  | null
  | bool (b : Bool)
  | num (n : JSNum)
  | str (s : String)
  | date (d : JSDate)
  | arr (xs : List JSVal)
  | obj (ps : List (String × JSVal))

/-- Reading the property `k` of a value, for the property names the program uses.  The result
`none` stands for the `TypeError` raised when the value is `undefined` or `null`. -/
def JSVal.get? : JSVal → String → Option JSVal
  | .undefined, _ => none
  | .null, _ => none
  | .obj ps, k => some ((ps.lookup k).getD .undefined)
  | _, _ => some .undefined

/-- The comparison `v === s` with a string `s`. -/
def JSVal.strictEqStr : JSVal → String → Bool
  | .str t, s => t == s
  | _, _ => false

/-- Truthiness, as tested by `!data`. -/
def JSVal.truthy : JSVal → Bool
  | .undefined => false
  | .null => false
  | .bool b => b
  | .num (.fin q) => decide (q ≠ 0)
  | .num .nan => false
  | .num _ => true
  | .str s => decide (s ≠ "")
  | _ => true

/-! ## JSON -/

mutual
/-- The value `JSON.stringify` serialises for a value; `none` when it yields `undefined`. -/
def JSVal.toJSON : JSVal → Option JSVal
  | .undefined => none
  | .null => some .null
  | .bool b => some (.bool b)
  | .num (.fin q) => some (.num (.fin q))
  | .num _ => some .null
  | .str s => some (.str s)
  | .date d => some (.str d.isoText)
  | .arr xs => some (.arr (toJSONElems xs))
  | .obj ps => some (.obj (toJSONProps ps))
/-- Array elements: an element without a serialisation is written as `null`. -/
def toJSONElems : List JSVal → List JSVal
  | [] => []
  | x :: xs => (x.toJSON.getD .null) :: toJSONElems xs
/-- Object properties: a property without a serialisation is left out. -/
def toJSONProps : List (String × JSVal) → List (String × JSVal)
  | [] => []
  | (k, v) :: ps =>
    match v.toJSON with
    | some j => (k, j) :: toJSONProps ps
    | none => toJSONProps ps
end

/-- A text held by the storage slot. -/
inductive StoredText where
  /-- A JSON text, identified with the value it parses to. -/
  | json (v : JSVal)
  /-- A text that is not JSON. -/
  | malformed (raw : String)

/-- The call `JSON.stringify(v)` followed by the conversion to text that `setItem` applies. -/
def JSONstringify (v : JSVal) : StoredText :=
  match v.toJSON with
  | some j => .json j
  | none => .malformed "undefined"

/-- The call `JSON.parse(localStorage.getItem(key))`; `none` stands for the `SyntaxError`.
An absent item is `null`, which is parsed as the text `null`. -/
def JSONparse : Option StoredText → Option JSVal
  | none => some .null
  | some (.json v) => some v
  | some (.malformed _) => none

/-! ## Record model -/

/-- A Leaflet position. -/
structure LatLng where
  lat : ℚ
  lng : ℚ
  deriving DecidableEq

/-- The two clock readings a constructor takes. -/
structure Clock where
  /-- The object `new Date()`. -/
  date : JSDate
  /-- The number `Date.now()`. -/
  now : Nat
  deriving DecidableEq

/-- The identifier `(Date.now() + '').slice(-10)`. -/
def Workout.id (now : Nat) : String :=
  jsSlice (numberToString now) (-10)

/-- Class `Workout`: the field initialisers followed by the constructor body. -/
def Workout (clock : Clock) (coords : LatLng) (distance duration : JSNum) :
    List (String × JSVal) :=
  [("date", .date clock.date),
   ("id", .str (Workout.id clock.now)),
   ("coords", .arr [.num (.fin coords.lat), .num (.fin coords.lng)]),
   ("distance", .num distance),
   ("duration", .num duration)]

/-- The table `months` of `#setDescription`. -/
def months : List String :=
  ["January", "February", "March", "April", "May", "June", "July", "August", "September",
   "October", "November", "December"]

/-- Method `#setDescription` of both subclasses, for the value `type` of the field `type`. -/
def setDescription (type : String) (date : JSDate) : String :=
  toUpperCase (jsFirst type) ++ jsSlice type 1 ++ " on " ++ (months[date.month]?).getD "undefined"

/-- Method `Running.calcPace`, in min/km. -/
def Running.calcPace (distance duration : JSNum) : JSNum :=
  duration.div distance

/-- Method `Cycling.calcSpeed`; the source comments it as km/h. -/
def Cycling.calcSpeed (distance duration : JSNum) : JSNum :=
  (distance.div duration).div (.fin 60)

/-- Class `Running`: the object `new Running(coords, distance, duration, cadence)`. -/
def Running (clock : Clock) (coords : LatLng) (distance duration cadence : JSNum) : JSVal :=
  .obj (Workout clock coords distance duration ++
    [("type", .str "running"),
     ("cadence", .num cadence),
     ("pace", .num (Running.calcPace distance duration)),
     ("description", .str (setDescription "running" clock.date))])

/-- Class `Cycling`: the object `new Cycling(coords, distance, duration, elevation)`. -/
def Cycling (clock : Clock) (coords : LatLng) (distance duration elevation : JSNum) : JSVal :=
  .obj (Workout clock coords distance duration ++
    [("type", .str "cycling"),
     ("elevation", .num elevation),
     ("speed", .num (Cycling.calcSpeed distance duration)),
     ("description", .str (setDescription "cycling" clock.date))])

/-! ## Application -/

/-- How a handler ends: it returns, it returns after `alert('Not valid Input')`, or it
throws. -/
inductive Outcome where
  | returned
  | alerted
  | threw
  deriving DecidableEq

/-- Class `App`: its private fields, and the item `workouts` of `localStorage`. -/
structure App where
  /-- Field `#workouts`. -/
  workouts : JSVal
  /-- Whether `#map` has been assigned. -/
  map : Bool
  /-- Field `#mapEvent`: the position of the last click on the map, once there is one. -/
  mapEvent : Option LatLng
  /-- The item `localStorage.getItem('workouts')`; `none` when there is no such item. -/
  localStorage : Option StoredText

/-- The values read from the form: `inputType.value`, and the other fields converted with the
unary `+` (an empty field converts to `0`). -/
structure FormInput where
  type : String
  distance : JSNum
  duration : JSNum
  cadence : JSNum
  elevation : JSNum

/-- The local function `validInputs` of `#newWorkout`. -/
def validInputs (inputs : List JSNum) : Bool :=
  inputs.all (fun inp => inp.isFinite && inp.gtZero)

/-- The receiver `workout.pace.toFixed(1)` has a method `toFixed` exactly when it is a
number. -/
def JSVal.hasToFixed : JSVal → Bool
  | .num _ => true
  | _ => false

/-- Method `#renderWorkoutMarker`: whether it completes.  It reads `workout.coords` and adds
the marker to `#map`; the checks Leaflet itself makes on the position are not modelled. -/
def App.renderWorkoutMarker (app : App) (workout : JSVal) : Bool :=
  (workout.get? "coords").isSome && app.map

/-- Method `#renderWorkout`: whether it completes.  It reads properties of `workout` and calls
`toFixed` on the pace of a running entry and on the speed of a cycling entry. -/
def App.renderWorkout (workout : JSVal) : Bool :=
  match workout.get? "type" with
  | none => false
  | some type =>
    (if type.strictEqStr "running" then ((workout.get? "pace").getD .undefined).hasToFixed
      else true) &&
    (if type.strictEqStr "cycling" then ((workout.get? "speed").getD .undefined).hasToFixed
      else true)

/-- Method `#setLocalStorage`. -/
def App.setLocalStorage (app : App) : App :=
  { app with localStorage := some (JSONstringify app.workouts) }

/-- Method `#getLocalStorage`. -/
def App.getLocalStorage (app : App) : Outcome × App :=
  match JSONparse app.localStorage with
  | none => (.threw, app)
  | some data =>
    if !data.truthy then (.returned, app)
    else
      let app1 := { app with workouts := data }
      match data with
      | .arr xs => if xs.all App.renderWorkout then (.returned, app1) else (.threw, app1)
      | _ => (.threw, app1)

/-- Method `#showMap`, called by Leaflet with a click on the map. -/
def App.showMap (app : App) (latlng : LatLng) : App :=
  { app with mapEvent := some latlng }

/-- Method `#loadMap`. -/
def App.loadMap (app : App) : Outcome × App :=
  let app1 := { app with map := true }
  match app1.workouts with
  | .arr xs => if xs.all app1.renderWorkoutMarker then (.returned, app1) else (.threw, app1)
  | _ => (.threw, app1)

/-- The call `this.#workouts.push(workout)`; `none` when `#workouts` has no method `push`. -/
def App.push (app : App) (workout : JSVal) : Option App :=
  match app.workouts with
  | .arr xs => some { app with workouts := .arr (xs ++ [workout]) }
  | _ => none

/-- The part of `#newWorkout` from `this.#workouts.push(workout)` on. -/
def App.addWorkout (app : App) (workout : JSVal) : Outcome × App :=
  match app.push workout with
  | none => (.threw, app)
  | some app1 =>
    if !app1.renderWorkoutMarker workout then (.threw, app1)
    else if !App.renderWorkout workout then (.threw, app1)
    else (.returned, app1.setLocalStorage)

/-- Method `#newWorkout`, the handler of the form: `createRecord` in the specification.
The two tests on `type` exclude each other, so they are written as one chain; when neither
holds, `workout` is still `undefined` at the call of `push`. -/
def App.newWorkout (app : App) (form : FormInput) (clock : Clock) : Outcome × App :=
  match app.mapEvent with
  | none => (.threw, app)
  | some latlng =>
    if form.type = "running" then
      if !validInputs [form.distance, form.duration, form.cadence] then (.alerted, app)
      else app.addWorkout (Running clock latlng form.distance form.duration form.cadence)
    else if form.type = "cycling" then
      if !validInputs [form.distance, form.duration, form.elevation] then (.alerted, app)
      else app.addWorkout (Cycling clock latlng form.distance form.duration form.elevation)
    else app.addWorkout .undefined

/-- The callback `work => work.id === id` run by `find` over the entries; the outer `none`
stands for the `TypeError` of the callback, and an absent entry is `undefined`. -/
def findById : List JSVal → String → Option JSVal
  | [], _ => some .undefined
  | work :: rest, id =>
    match work.get? "id" with
    | none => none
    | some v => if v.strictEqStr id then some work else findById rest id

/-- Method `#moveToPopup`, the click handler of the list.  The argument is the `data-id` of
the element `e.target.closest('.workout')`, `none` when there is no such element. -/
def App.moveToPopup (app : App) (workoutEl : Option String) : Outcome × App :=
  match workoutEl with
  | none => (.returned, app)
  | some id =>
    match app.workouts with
    | .arr xs =>
      match findById xs id with
      | none => (.threw, app)
      | some workout =>
        if app.map && (workout.get? "coords").isSome then (.returned, app) else (.threw, app)
    | _ => (.threw, app)

/-- The field initialisers of `App`, over a given content of the storage slot. -/
def App.fresh (storage : Option StoredText) : App :=
  { workouts := .arr [], map := false, mapEvent := none, localStorage := storage }

/-- The page is loaded again: a new `App` over the same storage, which restores from it. -/
def App.reload (app : App) : Outcome × App :=
  (App.fresh app.localStorage).getLocalStorage

/-! ## Sessions -/

/-- One use of the form: the click on the map that opens it, the submitted values and the
clock readings taken if a record is constructed. -/
structure Call where
  latlng : LatLng
  form : FormInput
  clock : Clock

/-- A click on the map followed by the submission of the form. -/
def App.createRecord (app : App) (c : Call) : Outcome × App :=
  (app.showMap c.latlng).newWorkout c.form c.clock

/-- A sequence of uses of the form, one after the other. -/
def App.runCalls : App → List Call → App
  | app, [] => app
  | app, c :: cs => App.runCalls (app.createRecord c).2 cs

/-- The empty session: no stored snapshot, no record, the map loaded. -/
def App.start : App :=
  { workouts := .arr [], map := true, mapEvent := none, localStorage := none }

/-- The entry a call appends to `#workouts`, if it appends one. -/
def Call.entry (c : Call) : Option JSVal :=
  if c.form.type = "running" then
    if validInputs [c.form.distance, c.form.duration, c.form.cadence] then
      some (Running c.clock c.latlng c.form.distance c.form.duration c.form.cadence)
    else none
  else if c.form.type = "cycling" then
    if validInputs [c.form.distance, c.form.duration, c.form.elevation] then
      some (Cycling c.clock c.latlng c.form.distance c.form.duration c.form.elevation)
    else none
  else some .undefined

/-! ## Predicates used in the statements -/

/-- A finite number strictly greater than zero. -/
def JSNum.IsPositiveFinite (x : JSNum) : Prop :=
  ∃ q : ℚ, x = .fin q ∧ 0 < q

/-- The third validated value: the cadence of a running entry, the elevation otherwise. -/
def FormInput.metric (form : FormInput) : JSNum :=
  if form.type = "running" then form.cadence else form.elevation

/-- All three validated values are finite and strictly greater than zero. -/
def FormInput.Valid (form : FormInput) : Prop :=
  form.distance.IsPositiveFinite ∧ form.duration.IsPositiveFinite ∧
    form.metric.IsPositiveFinite

/-- The object `#newWorkout` constructs for a form whose type is one of the two kinds. -/
def FormInput.record (form : FormInput) (clock : Clock) (latlng : LatLng) : JSVal :=
  if form.type = "running" then
    Running clock latlng form.distance form.duration form.cadence
  else
    Cycling clock latlng form.distance form.duration form.elevation

/-- An entry that reads as a running or cycling record whose distance, duration and metric
are finite and strictly positive. -/
def JSVal.IsValidRecord (v : JSVal) : Prop :=
  ∃ d t m : ℚ, 0 < d ∧ 0 < t ∧ 0 < m ∧
    v.get? "distance" = some (.num (.fin d)) ∧
    v.get? "duration" = some (.num (.fin t)) ∧
    ((v.get? "type" = some (.str "running") ∧ v.get? "cadence" = some (.num (.fin m))) ∨
     (v.get? "type" = some (.str "cycling") ∧ v.get? "elevation" = some (.num (.fin m))))

/-- Two entries do not carry the same `id`. -/
def JSVal.DistinctId (a b : JSVal) : Prop :=
  ∀ i j : JSVal, a.get? "id" = some i → b.get? "id" = some j → i ≠ j

/-- The value of a decimal digit string. -/
def decimalValue (cs : List Char) : Nat :=
  cs.foldl (fun acc c => acc * 10 + (c.toNat - 48)) 0

/-- An object constructed by `#newWorkout` from validated values. -/
def JSVal.IsFreshRecord (v : JSVal) : Prop :=
  ∃ (clock : Clock) (ll : LatLng) (d t m : ℚ), 0 < d ∧ 0 < t ∧ 0 < m ∧
    (v = Running clock ll (.fin d) (.fin t) (.fin m) ∨
     v = Cycling clock ll (.fin d) (.fin t) (.fin m))

/-- The entry `y` restored for the entry `x`: every property other than `date` reads the
same, and `date`, a `Date` object in `x`, is in `y` the text `toJSON()` gave for it. -/
def JSVal.RestoredFrom (x y : JSVal) : Prop :=
  (∀ k : String, k ≠ "date" → y.get? k = x.get? k) ∧
  ∃ d : JSDate, x.get? "date" = some (.date d) ∧ y.get? "date" = some (.str d.isoText)

/-- The rational `x` is a finite double: an integer of fewer than 54 bits times a power of
two within the exponent range of binary64. -/
def IsDouble (x : ℚ) : Prop :=
  ∃ m e : ℤ, |m| < 2 ^ 53 ∧ -1074 ≤ e ∧ e ≤ 971 ∧ x = m * 2 ^ e

/-- The derived metric of the entry, its pace or its speed, is a finite number. -/
def JSVal.DerivedFinite (v : JSVal) : Prop :=
  (∃ q : ℚ, v.get? "pace" = some (.num (.fin q))) ∨
  (∃ q : ℚ, v.get? "speed" = some (.num (.fin q)))

/-- The form is of one of the two kinds the handler constructs. -/
def Call.KnownKind (c : Call) : Prop :=
  c.form.type = "running" ∨ c.form.type = "cycling"

/-! ## Sample inputs -/

/-- The clock of the samples: 14 March 2023, 22:13:20 UTC. -/
def sampleClock : Clock :=
  ⟨⟨1678832000000, 2, "2023-03-14T22:13:20.000Z"⟩, 1678832000000⟩

/-- A running form (distance 5, duration 25, cadence 180) submitted at (10, 10). -/
def sampleRun : Call :=
  ⟨⟨10, 10⟩, ⟨"running", .fin 5, .fin 25, .fin 180, .fin 0⟩, sampleClock⟩

/-- A cycling form (distance 15, duration 45, elevation 200) submitted at (20, 20) within the
same millisecond as `sampleRun`. -/
def sampleRide : Call :=
  ⟨⟨20, 20⟩, ⟨"cycling", .fin 15, .fin 45, .fin 0, .fin 200⟩, sampleClock⟩

/-- The cycling form of `sampleRide`, submitted one millisecond later. -/
def sampleRideLater : Call :=
  ⟨⟨20, 20⟩, ⟨"cycling", .fin 15, .fin 45, .fin 0, .fin 200⟩,
    ⟨⟨1678832000001, 2, "2023-03-14T22:13:20.001Z"⟩, 1678832000001⟩⟩

/-- A form whose type is neither of the two kinds. -/
def sampleSwim : Call :=
  ⟨⟨10, 10⟩, ⟨"swimming", .fin 5, .fin 25, .fin 180, .fin 200⟩, sampleClock⟩

/-- The record `sampleRun` constructs. -/
def sampleRunRecord : JSVal :=
  Running sampleClock ⟨10, 10⟩ (.fin 5) (.fin 25) (.fin 180)

/-- The record `sampleRide` constructs. -/
def sampleRideRecord : JSVal :=
  Cycling sampleClock ⟨20, 20⟩ (.fin 15) (.fin 45) (.fin 200)

/-- The record `sampleRideLater` constructs. -/
def sampleRideLaterRecord : JSVal :=
  Cycling ⟨⟨1678832000001, 2, "2023-03-14T22:13:20.001Z"⟩, 1678832000001⟩ ⟨20, 20⟩
    (.fin 15) (.fin 45) (.fin 200)

/-- The entry restored from the snapshot of `sampleRunRecord`. -/
def sampleRunRestored : JSVal :=
  .obj [("date", .str "2023-03-14T22:13:20.000Z"),
        ("id", .str "8832000000"),
        ("coords", .arr [.num (.fin 10), .num (.fin 10)]),
        ("distance", .num (.fin 5)),
        ("duration", .num (.fin 25)),
        ("type", .str "running"),
        ("cadence", .num (.fin 180)),
        ("pace", .num (.fin 5)),
        ("description", .str "Running on March")]

/-- The largest finite double, `Number.MAX_VALUE`, about `1.7976931348623157e308`. -/
def maxDouble : ℚ :=
  9007199254740991 * 2 ^ (971 : ℤ)

/-- A running form with distance 0.5, duration `Number.MAX_VALUE` and cadence 180. -/
def sampleLong : Call :=
  ⟨⟨10, 10⟩, ⟨"running", .fin (1 / 2), .fin maxDouble, .fin 180, .fin 0⟩, sampleClock⟩

/-- The record `sampleLong` constructs. -/
def sampleLongRecord : JSVal :=
  Running sampleClock ⟨10, 10⟩ (.fin (1 / 2)) (.fin maxDouble) (.fin 180)

/-- The entry restored from the snapshot of `sampleLongRecord`. -/
def sampleLongRestored : JSVal :=
  .obj [("date", .str "2023-03-14T22:13:20.000Z"),
        ("id", .str "8832000000"),
        ("coords", .arr [.num (.fin 10), .num (.fin 10)]),
        ("distance", .num (.fin (1 / 2))),
        ("duration", .num (.fin maxDouble)),
        ("type", .str "running"),
        ("cadence", .num (.fin 180)),
        ("pace", .null),
        ("description", .str "Running on March")]

/-- A stored entry written by another program: a running entry whose `id` is the number
123. -/
def sampleForeign : JSVal :=
  .obj [("id", .num (.fin 123)),
        ("coords", .arr [.num (.fin 10), .num (.fin 10)]),
        ("distance", .num (.fin 5)),
        ("duration", .num (.fin 25)),
        ("type", .str "running"),
        ("cadence", .num (.fin 180)),
        ("pace", .num (.fin 5)),
        ("description", .str "Running on March")]

/-- The storage is in step with the collection: the map is loaded, `#workouts` is an array,
and the slot holds its serialisation, or nothing while the array is still empty. -/
def App.InSync (app : App) : Prop :=
  app.map = true ∧ ∃ xs, app.workouts = .arr xs ∧
    (app.localStorage = some (JSONstringify (.arr xs)) ∨
      (xs = [] ∧ app.localStorage = none))

/-! ## Basic facts -/

theorem JSNum.check_iff (x : JSNum) :
    (x.isFinite && x.gtZero) = true ↔ x.IsPositiveFinite := by
  cases x <;> simp [JSNum.isFinite, JSNum.gtZero, JSNum.IsPositiveFinite]

theorem validInputs_three (a b c : JSNum) :
    validInputs [a, b, c] = true ↔
      a.IsPositiveFinite ∧ b.IsPositiveFinite ∧ c.IsPositiveFinite := by
  simp only [validInputs, List.all_cons, List.all_nil, Bool.and_true, Bool.and_eq_true,
    ← JSNum.check_iff]

theorem Running_get_coords (clock : Clock) (ll : LatLng) (d t c : JSNum) :
    (Running clock ll d t c).get? "coords"
      = some (.arr [.num (.fin ll.lat), .num (.fin ll.lng)]) := by
  simp [Running, Workout, JSVal.get?, List.lookup]

theorem Cycling_get_coords (clock : Clock) (ll : LatLng) (d t c : JSNum) :
    (Cycling clock ll d t c).get? "coords"
      = some (.arr [.num (.fin ll.lat), .num (.fin ll.lng)]) := by
  simp [Cycling, Workout, JSVal.get?, List.lookup]

theorem Running_render (clock : Clock) (ll : LatLng) (d t c : JSNum) :
    App.renderWorkout (Running clock ll d t c) = true := by
  simp [App.renderWorkout, Running, Workout, JSVal.get?, List.lookup, JSVal.strictEqStr,
    JSVal.hasToFixed]

theorem Cycling_render (clock : Clock) (ll : LatLng) (d t c : JSNum) :
    App.renderWorkout (Cycling clock ll d t c) = true := by
  simp [App.renderWorkout, Cycling, Workout, JSVal.get?, List.lookup, JSVal.strictEqStr,
    JSVal.hasToFixed]

theorem FormInput.record_coords (form : FormInput) (clock : Clock) (ll : LatLng) :
    ((form.record clock ll).get? "coords").isSome = true := by
  unfold FormInput.record
  split_ifs
  · rw [Running_get_coords]; rfl
  · rw [Cycling_get_coords]; rfl

theorem FormInput.record_render (form : FormInput) (clock : Clock) (ll : LatLng) :
    App.renderWorkout (form.record clock ll) = true := by
  unfold FormInput.record
  split_ifs
  · exact Running_render _ _ _ _ _
  · exact Cycling_render _ _ _ _ _

theorem FormInput.valid_iff (form : FormInput) :
    form.Valid ↔
      validInputs [form.distance, form.duration, form.metric] = true := by
  rw [validInputs_three]; rfl

/-! ## Rounding to binary64 -/

theorem roundHalfEven_of_close (z : ℚ) (m : ℤ) (h : |z - m| < 1 / 2) :
    roundHalfEven z = m := by
  rw [abs_lt] at h
  unfold roundHalfEven
  by_cases hz : (m : ℚ) ≤ z
  · have hf : ⌊z⌋ = m := by
      rw [Int.floor_eq_iff]; constructor <;> linarith
    rw [hf, if_pos (by linarith)]
  · have hf : ⌊z⌋ = m - 1 := by
      rw [Int.floor_eq_iff]; push_cast; constructor <;> linarith
    rw [hf]
    push_cast
    rw [if_neg (by linarith), if_pos (by linarith)]
    ring

theorem roundHalfEven_near (z : ℚ) : |(roundHalfEven z : ℚ) - z| ≤ 1 / 2 := by
  have h1 := Int.floor_le z
  have h2 := Int.lt_floor_add_one z
  unfold roundHalfEven
  rw [abs_le]
  split_ifs with a b c
  · constructor <;> linarith
  · push_cast; constructor <;> linarith
  · constructor <;> linarith
  · push_cast; constructor <;> linarith

theorem roundHalfEven_intCast (m : ℤ) : roundHalfEven (m : ℚ) = m :=
  roundHalfEven_of_close _ m (by simp)


theorem log_two_eq (x : ℚ) (k : ℤ) (h1 : (2 : ℚ) ^ k ≤ x) (h2 : x < 2 ^ (k + 1)) :
    Int.log 2 x = k := by
  have hx : 0 < x := lt_of_lt_of_le (zpow_pos (by norm_num) k) h1
  have a : k ≤ Int.log 2 x := (Int.zpow_le_iff_le_log (by norm_num) hx).1 (by exact_mod_cast h1)
  have b : Int.log 2 x < k + 1 :=
    (Int.lt_zpow_iff_log_lt (by norm_num) hx).1 (by exact_mod_cast h2)
  omega

theorem roundDouble_of_close (x : ℚ) (m : ℤ) (hx : 0 < x)
    (h : |x / 2 ^ ulpExponent x - m| < 1 / 2) :
    roundDouble x =
      if (2 : ℚ) ^ (1024 : ℕ) ≤ m * 2 ^ ulpExponent x then .posInf
      else .fin (m * 2 ^ ulpExponent x) := by
  unfold roundDouble
  simp only [abs_of_pos hx, roundHalfEven_of_close _ m h, if_pos hx]

theorem two_zpow_pos (e : ℤ) : (0 : ℚ) < 2 ^ e := zpow_pos (by norm_num) e

theorem abs_div_two_zpow_int (m e u : ℤ) (hu : u ≤ e) :
    ∃ k : ℤ, |(m : ℚ) * 2 ^ e| / 2 ^ u = (k : ℚ) := by
  obtain ⟨n, hn⟩ := Int.le.dest hu
  refine ⟨|m| * 2 ^ n, ?_⟩
  rw [abs_mul, abs_of_pos (two_zpow_pos e), ← hn, zpow_add₀ (by norm_num : (2 : ℚ) ≠ 0),
    zpow_natCast, div_eq_iff (two_zpow_pos u).ne']
  push_cast
  ring

theorem roundDouble_of_isDouble (x : ℚ) (h : IsDouble x) : roundDouble x = .fin x := by
  obtain ⟨m, e, hm, he1, he2, rfl⟩ := h
  by_cases hm0 : m = 0
  · subst hm0
    simp [roundDouble, ulpExponent, roundHalfEven]
  have hpos : (0 : ℚ) < |(m : ℚ) * 2 ^ e| := by
    rw [abs_pos]
    exact mul_ne_zero (by exact_mod_cast hm0) (two_zpow_pos e).ne'
  have habs : |(m : ℚ) * 2 ^ e| = ((|m| : ℤ) : ℚ) * 2 ^ e := by
    rw [abs_mul, abs_of_pos (two_zpow_pos e), Int.cast_abs]
  have hmq : ((|m| : ℤ) : ℚ) < 2 ^ (53 : ℤ) := by
    rw [show ((2 : ℚ) ^ (53 : ℤ)) = ((2 ^ 53 : ℤ) : ℚ) by norm_num]
    exact_mod_cast hm
  have hlt : |(m : ℚ) * 2 ^ e| < 2 ^ (e + 53) := by
    rw [habs, add_comm, zpow_add₀ (by norm_num : (2 : ℚ) ≠ 0)]
    exact mul_lt_mul_of_pos_right hmq (two_zpow_pos e)
  have hlog : Int.log 2 |(m : ℚ) * 2 ^ e| < e + 53 :=
    (Int.lt_zpow_iff_log_lt (by norm_num) hpos).1 (by exact_mod_cast hlt)
  have hu : ulpExponent ((m : ℚ) * 2 ^ e) ≤ e := by
    unfold ulpExponent
    omega
  have hup := two_zpow_pos (ulpExponent ((m : ℚ) * 2 ^ e))
  obtain ⟨k, hint⟩ := abs_div_two_zpow_int m e _ hu
  have hy : (k : ℚ) * 2 ^ ulpExponent ((m : ℚ) * 2 ^ e) = |(m : ℚ) * 2 ^ e| := by
    rw [← hint, div_mul_cancel₀ _ hup.ne']
  have hno : ¬ (2 : ℚ) ^ (1024 : ℕ) ≤ |(m : ℚ) * 2 ^ e| := by
    rw [not_le]
    refine lt_of_lt_of_le hlt ?_
    have : (2 : ℚ) ^ (e + 53) ≤ 2 ^ ((1024 : ℕ) : ℤ) :=
      zpow_le_zpow_right₀ (by norm_num) (by omega)
    rwa [zpow_natCast] at this
  unfold roundDouble
  simp only [hint, roundHalfEven_intCast, hy, if_neg hno]
  congr 1
  split_ifs with h0
  · exact abs_of_pos h0
  · rw [abs_of_nonpos (not_lt.1 h0), neg_neg]


theorem ulpExponent_eq (x : ℚ) (k : ℤ) (h1 : (2 : ℚ) ^ k ≤ x) (h2 : x < 2 ^ (k + 1))
    (hk : -1022 ≤ k) : ulpExponent x = k - 52 := by
  have hx : 0 < x := lt_of_lt_of_le (two_zpow_pos k) h1
  unfold ulpExponent
  rw [abs_of_pos hx, log_two_eq x k h1 h2]
  omega

/-- A finite result lies within half a unit in the last place of the exact value. -/
theorem roundDouble_near (x q : ℚ) (hx : 0 < x) (h : roundDouble x = .fin q) :
    |q - x| ≤ 2 ^ ulpExponent x / 2 := by
  have hp := two_zpow_pos (ulpExponent x)
  unfold roundDouble at h
  simp only [abs_of_pos hx, if_pos hx] at h
  split_ifs at h
  injection h with h
  rw [← h]
  have hn := roundHalfEven_near (x / 2 ^ ulpExponent x)
  have e : (roundHalfEven (x / 2 ^ ulpExponent x) : ℚ) * 2 ^ ulpExponent x - x
      = ((roundHalfEven (x / 2 ^ ulpExponent x) : ℚ) - x / 2 ^ ulpExponent x)
        * 2 ^ ulpExponent x := by
    rw [sub_mul, div_mul_cancel₀ _ hp.ne']
  rw [e, abs_mul, abs_of_pos hp]
  calc |(roundHalfEven (x / 2 ^ ulpExponent x) : ℚ) - x / 2 ^ ulpExponent x|
        * 2 ^ ulpExponent x ≤ 1 / 2 * 2 ^ ulpExponent x :=
        mul_le_mul_of_nonneg_right hn hp.le
    _ = 2 ^ ulpExponent x / 2 := by ring

theorem roundDouble_third :
    roundDouble (20 / 60) = .fin (6004799503160661 / 18014398509481984) := by
  have hu : ulpExponent (20 / 60 : ℚ) = -54 := by
    rw [ulpExponent_eq _ (-2) (by norm_num) (by norm_num) (by norm_num)]
    norm_num
  rw [roundDouble_of_close _ 6004799503160661 (by norm_num) (by rw [hu, abs_lt]; norm_num), hu]
  norm_num

theorem roundDouble_speed :
    roundDouble (6004799503160661 / 18014398509481984 / 60)
      = .fin (3202559735019019 / 576460752303423488) := by
  have hu : ulpExponent (6004799503160661 / 18014398509481984 / 60 : ℚ) = -60 := by
    rw [ulpExponent_eq _ (-8) (by norm_num) (by norm_num) (by norm_num)]
    norm_num
  rw [roundDouble_of_close _ 6405119470038038 (by norm_num) (by rw [hu, abs_lt]; norm_num), hu]
  norm_num

theorem maxDouble_pos : 0 < maxDouble :=
  mul_pos (by norm_num) (two_zpow_pos 971)

theorem maxDouble_div_half : maxDouble / (1 / 2) = 9007199254740991 * 2 ^ (972 : ℤ) := by
  unfold maxDouble
  rw [show (972 : ℤ) = 971 + 1 by norm_num, zpow_add_one₀ (by norm_num : (2 : ℚ) ≠ 0)]
  ring

theorem roundDouble_overflow : roundDouble (maxDouble / (1 / 2)) = .posInf := by
  rw [maxDouble_div_half]
  have h52 : (2 : ℚ) ^ (1024 : ℤ) = 4503599627370496 * 2 ^ (972 : ℤ) := by
    rw [show (1024 : ℤ) = 52 + 972 by norm_num, zpow_add₀ (by norm_num : (2 : ℚ) ≠ 0)]
    norm_num
  have h53 : (2 : ℚ) ^ (1024 + 1 : ℤ) = 9007199254740992 * 2 ^ (972 : ℤ) := by
    rw [show (1024 + 1 : ℤ) = 53 + 972 by norm_num, zpow_add₀ (by norm_num : (2 : ℚ) ≠ 0)]
    norm_num
  have hp := two_zpow_pos 972
  have h1 : (2 : ℚ) ^ (1024 : ℤ) ≤ 9007199254740991 * 2 ^ (972 : ℤ) := by
    rw [h52]
    exact mul_le_mul_of_nonneg_right (by norm_num) hp.le
  have h2 : (9007199254740991 : ℚ) * 2 ^ (972 : ℤ) < 2 ^ (1024 + 1 : ℤ) := by
    rw [h53]
    exact mul_lt_mul_of_pos_right (by norm_num) hp
  have hu : ulpExponent (9007199254740991 * 2 ^ (972 : ℤ) : ℚ) = 972 := by
    rw [ulpExponent_eq _ 1024 h1 h2 (by norm_num)]
    norm_num
  rw [roundDouble_of_close _ 9007199254740991 (mul_pos (by norm_num) hp)
    (by rw [hu, mul_div_assoc, div_self hp.ne']; norm_num), hu]
  rw [if_pos]
  rw [← zpow_natCast, Nat.cast_ofNat]
  exact h1

/-! ## The append step -/

theorem App.addWorkout_workouts (app : App) (v : JSVal) (xs : List JSVal)
    (h : app.workouts = .arr xs) :
    (app.addWorkout v).2.workouts = .arr (xs ++ [v]) := by
  unfold App.addWorkout App.push
  rw [h]
  dsimp only
  split_ifs <;> rfl

theorem App.addWorkout_complete (app : App) (v : JSVal) (xs : List JSVal)
    (h : app.workouts = .arr xs) (hmap : app.map = true)
    (hc : (v.get? "coords").isSome = true) (hr : App.renderWorkout v = true) :
    app.addWorkout v =
      (.returned, { app with workouts := .arr (xs ++ [v]),
                             localStorage := some (JSONstringify (.arr (xs ++ [v]))) }) := by
  unfold App.addWorkout App.push
  rw [h]
  simp [App.renderWorkoutMarker, hc, hr, hmap, App.setLocalStorage]

theorem App.addWorkout_stored (app : App) (v : JSVal) (xs : List JSVal)
    (h : app.workouts = .arr xs) (ho : (app.addWorkout v).1 = .returned) :
    (app.addWorkout v).2.localStorage = some (JSONstringify (.arr (xs ++ [v]))) := by
  unfold App.addWorkout App.push at ho ⊢
  rw [h] at ho ⊢
  dsimp only at ho ⊢
  split_ifs at ho ⊢
  all_goals simp_all [App.setLocalStorage]

/-- For one of the two kinds, `#newWorkout` is the validation followed by the append. -/
theorem App.newWorkout_kind (app : App) (form : FormInput) (clock : Clock) (ll : LatLng)
    (hev : app.mapEvent = some ll)
    (hkind : form.type = "running" ∨ form.type = "cycling") :
    app.newWorkout form clock =
      if validInputs [form.distance, form.duration, form.metric] then
        app.addWorkout (form.record clock ll)
      else (.alerted, app) := by
  unfold App.newWorkout FormInput.metric FormInput.record
  rw [hev]
  rcases hkind with h | h
  · simp only [h, if_true]
    split_ifs <;> simp_all
  · have h2 : ¬ form.type = "running" := by rw [h]; decide
    simp only [h, h2, if_true, if_false]
    split_ifs <;> simp_all

/-! ## Validation (C1) -/

/-- C1: for a kind of running or cycling, with the map clicked and `#workouts` an array,
`#newWorkout` appends a record exactly when distance, duration and metric are all finite and
strictly greater than zero; in that case the appended entry is the constructed object, and
otherwise the call ends with the alert and the whole state, `#workouts` and the stored
snapshot included, is what it was. -/
theorem App.newWorkout_appends_iff_valid (app : App) (form : FormInput) (clock : Clock)
    (ll : LatLng) (xs : List JSVal)
    (hev : app.mapEvent = some ll) (hws : app.workouts = .arr xs)
    (hkind : form.type = "running" ∨ form.type = "cycling") :
    ((∃ v, (app.newWorkout form clock).2.workouts = .arr (xs ++ [v])) ↔ form.Valid) ∧
    (form.Valid →
      (app.newWorkout form clock).2.workouts = .arr (xs ++ [form.record clock ll])) ∧
    (¬ form.Valid → app.newWorkout form clock = (.alerted, app)) := by
  rw [App.newWorkout_kind app form clock ll hev hkind, FormInput.valid_iff]
  by_cases hv : validInputs [form.distance, form.duration, form.metric] = true
  · rw [if_pos hv, App.addWorkout_workouts app _ xs hws]
    exact ⟨⟨fun _ => hv, fun _ => ⟨_, rfl⟩⟩, fun _ => rfl, fun h => absurd hv h⟩
  · rw [if_neg hv]
    refine ⟨⟨?_, fun h => absurd h hv⟩, fun h => absurd h hv, fun _ => rfl⟩
    rintro ⟨v, hx⟩
    rw [show (Outcome.alerted, app).2.workouts = JSVal.arr xs from hws] at hx
    have hl : xs.length = (xs ++ [v]).length := by
      injection hx with hx
      exact congrArg List.length hx
    simp at hl

/-- Witness of C1: a running form with distance 5, duration 25 and cadence 180, submitted
after a click at (10, 10) in the empty session, is valid and its record is appended. -/
theorem App.newWorkout_appends_iff_valid_witness :
    ((App.start.showMap ⟨10, 10⟩).newWorkout
        ⟨"running", .fin 5, .fin 25, .fin 180, .fin 0⟩ sampleClock).2.workouts
      = .arr ([] ++ [FormInput.record ⟨"running", .fin 5, .fin 25, .fin 180, .fin 0⟩
          sampleClock ⟨10, 10⟩]) :=
  (App.newWorkout_appends_iff_valid (App.start.showMap ⟨10, 10⟩)
    ⟨"running", .fin 5, .fin 25, .fin 180, .fin 0⟩ sampleClock ⟨10, 10⟩ []
    rfl rfl (Or.inl rfl)).2.1
    ⟨⟨5, rfl, by norm_num⟩, ⟨25, rfl, by norm_num⟩, ⟨180, rfl, by norm_num⟩⟩

/-! ## Derived metrics (C2, C3) -/

theorem JSNum.div_fin (a b : ℚ) (hb : 0 < b) :
    (JSNum.fin a).div (.fin b) = roundDouble (a / b) := by
  simp [JSNum.div, hb.ne']

theorem JSNum.div_exact (a b : ℚ) (hb : 0 < b) (h : IsDouble (a / b)) :
    (JSNum.fin a).div (.fin b) = .fin (a / b) := by
  rw [JSNum.div_fin a b hb, roundDouble_of_isDouble _ h]

theorem isDouble_five : IsDouble 5 :=
  ⟨5, 0, by norm_num, by norm_num, by norm_num, by norm_num⟩

theorem div_25_5 : (JSNum.fin 25).div (.fin 5) = .fin 5 := by
  rw [JSNum.div_exact 25 5 (by norm_num) (by norm_num; exact isDouble_five)]
  norm_num

/-- C3: for every running form with finite, strictly positive distance `d`, duration `t` and
cadence `c`, the record `#newWorkout` appends stores `d`, `t` and `c` as given and has as its
pace the quotient `duration / distance` of the operator `/`: the double nearest to `t / d`
(an infinity when that overflows), which is `t / d` itself whenever `t / d` is a double, and
otherwise, when finite, within half a unit in the last place of it. -/
theorem App.newWorkout_running_pace (app : App) (clock : Clock) (ll : LatLng)
    (xs : List JSVal) (d t c elevation : ℚ)
    (hev : app.mapEvent = some ll) (hws : app.workouts = .arr xs)
    (hd : 0 < d) (ht : 0 < t) (hc : 0 < c) :
    ∃ v, (app.newWorkout ⟨"running", .fin d, .fin t, .fin c, .fin elevation⟩ clock).2.workouts
          = .arr (xs ++ [v]) ∧
      v.get? "type" = some (.str "running") ∧
      v.get? "pace" = some (.num ((JSNum.fin t).div (.fin d))) ∧
      (JSNum.fin t).div (.fin d) = roundDouble (t / d) ∧
      (IsDouble (t / d) → v.get? "pace" = some (.num (.fin (t / d)))) ∧
      (∀ q : ℚ, v.get? "pace" = some (.num (.fin q)) →
        |q - t / d| ≤ 2 ^ ulpExponent (t / d) / 2) ∧
      v.get? "distance" = some (.num (.fin d)) ∧
      v.get? "duration" = some (.num (.fin t)) ∧
      v.get? "cadence" = some (.num (.fin c)) := by
  have hv : FormInput.Valid ⟨"running", .fin d, .fin t, .fin c, .fin elevation⟩ :=
    ⟨⟨d, rfl, hd⟩, ⟨t, rfl, ht⟩, ⟨c, rfl, hc⟩⟩
  rw [App.newWorkout_kind app _ clock ll hev (Or.inl rfl), if_pos ((FormInput.valid_iff _).1 hv),
    App.addWorkout_workouts app _ xs hws]
  have hp : (Running clock ll (.fin d) (.fin t) (.fin c)).get? "pace"
      = some (.num ((JSNum.fin t).div (.fin d))) := by
    simp [Running, Workout, JSVal.get?, List.lookup, Running.calcPace]
  refine ⟨Running clock ll (.fin d) (.fin t) (.fin c), by simp [FormInput.record], ?_, hp,
    JSNum.div_fin t d hd, ?_, ?_, ?_, ?_, ?_⟩
  · simp [Running, Workout, JSVal.get?, List.lookup]
  · intro h
    rw [hp, JSNum.div_exact t d hd h]
  · intro q hq
    rw [hp, JSNum.div_fin t d hd] at hq
    injection hq with hq
    injection hq with hq
    exact roundDouble_near _ q (div_pos ht hd) hq
  · simp [Running, Workout, JSVal.get?, List.lookup]
  · simp [Running, Workout, JSVal.get?, List.lookup]
  · simp [Running, Workout, JSVal.get?, List.lookup]

/-- Witness of C3: distance 10 and duration 50 give pace 5, and so do distance 5 and
duration 25. -/
theorem App.newWorkout_running_pace_witness :
    (∃ v, ((App.start.showMap ⟨10, 10⟩).newWorkout
            ⟨"running", .fin 10, .fin 50, .fin 180, .fin 0⟩
            sampleClock).2.workouts = .arr ([] ++ [v]) ∧
      v.get? "pace" = some (.num (.fin 5))) ∧
    (∃ v, ((App.start.showMap ⟨10, 10⟩).newWorkout
            ⟨"running", .fin 5, .fin 25, .fin 180, .fin 0⟩
            sampleClock).2.workouts = .arr ([] ++ [v]) ∧
      v.get? "pace" = some (.num (.fin 5))) :=
  ⟨(App.newWorkout_running_pace (App.start.showMap ⟨10, 10⟩) sampleClock
      ⟨10, 10⟩ [] 10 50 180 0 rfl rfl (by norm_num) (by norm_num) (by norm_num)).imp
      (fun _ h => ⟨h.1, by
        rw [h.2.2.2.2.1 (by norm_num; exact isDouble_five)]
        norm_num⟩),
   (App.newWorkout_running_pace (App.start.showMap ⟨10, 10⟩) sampleClock
      ⟨10, 10⟩ [] 5 25 180 0 rfl rfl (by norm_num) (by norm_num) (by norm_num)).imp
      (fun _ h => ⟨h.1, by
        rw [h.2.2.2.2.1 (by norm_num; exact isDouble_five)]
        norm_num⟩)⟩

theorem div_20_60_60 :
    ((JSNum.fin 20).div (.fin 60)).div (.fin 60)
      = .fin (3202559735019019 / 576460752303423488) := by
  rw [JSNum.div_fin 20 60 (by norm_num), roundDouble_third,
    JSNum.div_fin _ 60 (by norm_num), roundDouble_speed]

/-- C2: a cycling form with distance 20, duration 60 and elevation 200, submitted in the empty
session, appends a record whose speed is the double `20 / 60 / 60`, which is
`3202559735019019 / 2 ^ 59`, about 0.0056 and below 0.01, not the `20` that
`distance / (duration / 60)` gives. -/
theorem App.newWorkout_cycling_speed_at_20_60 :
    ∃ v, ((App.start.showMap ⟨20, 20⟩).newWorkout
            ⟨"cycling", .fin 20, .fin 60, .fin 0, .fin 200⟩
            sampleClock).2.workouts = .arr [v] ∧
      v.get? "speed" = some (.num (.fin (3202559735019019 / 576460752303423488))) ∧
      (3202559735019019 / 576460752303423488 : ℚ) < 1 / 100 ∧
      v.get? "speed" ≠ some (.num (.fin (20 / (60 / 60)))) := by
  have hv : FormInput.Valid ⟨"cycling", .fin 20, .fin 60, .fin 0, .fin 200⟩ :=
    ⟨⟨20, rfl, by norm_num⟩, ⟨60, rfl, by norm_num⟩, ⟨200, rfl, by norm_num⟩⟩
  rw [App.newWorkout_kind _ _ _ ⟨20, 20⟩ rfl (Or.inr rfl),
    if_pos ((FormInput.valid_iff _).1 hv), App.addWorkout_workouts _ _ [] rfl]
  have hs : (Cycling sampleClock ⟨20, 20⟩ (.fin 20) (.fin 60) (.fin 200)).get? "speed"
      = some (.num (.fin (3202559735019019 / 576460752303423488))) := by
    simp [Cycling, Workout, JSVal.get?, List.lookup, Cycling.calcSpeed, div_20_60_60]
  refine ⟨Cycling sampleClock ⟨20, 20⟩ (.fin 20) (.fin 60) (.fin 200),
    by simp [FormInput.record], hs, by norm_num, ?_⟩
  rw [hs]
  norm_num

/-! ## Append and snapshot (C5) -/

theorem toJSONElems_eq_map (xs : List JSVal) :
    toJSONElems xs = xs.map (fun x => x.toJSON.getD .null) := by
  induction xs with
  | nil => rfl
  | cons x xs ih => simp [toJSONElems, ih]

theorem JSONstringify_arr (xs : List JSVal) :
    JSONstringify (.arr xs) = .json (.arr (xs.map (fun x => x.toJSON.getD .null))) := by
  simp [JSONstringify, JSVal.toJSON, toJSONElems_eq_map]

/-- C5: for every array `#workouts` and every valid form of one of the two kinds, submitted
after a click on the map, `#newWorkout` keeps the existing entries in their order and puts the
new record at the end, so the length grows by one; the call completes when the map is loaded,
and whenever it completes the stored snapshot is the serialisation, entry by entry and in
the same order, of the whole updated collection. -/
theorem App.newWorkout_append_and_snapshot (app : App) (form : FormInput) (clock : Clock)
    (ll : LatLng) (xs : List JSVal)
    (hev : app.mapEvent = some ll) (hws : app.workouts = .arr xs)
    (hkind : form.type = "running" ∨ form.type = "cycling") (hv : form.Valid) :
    (app.newWorkout form clock).2.workouts = .arr (xs ++ [form.record clock ll]) ∧
    (xs ++ [form.record clock ll]).length = xs.length + 1 ∧
    (app.map = true → (app.newWorkout form clock).1 = .returned) ∧
    ((app.newWorkout form clock).1 = .returned →
      (app.newWorkout form clock).2.localStorage =
        some (.json (.arr ((xs ++ [form.record clock ll]).map
          (fun x => x.toJSON.getD .null))))) := by
  rw [App.newWorkout_kind app form clock ll hev hkind, if_pos ((FormInput.valid_iff _).1 hv)]
  refine ⟨App.addWorkout_workouts app _ xs hws, by simp, ?_, ?_⟩
  · intro hmap
    rw [App.addWorkout_complete app _ xs hws hmap (FormInput.record_coords _ _ _)
      (FormInput.record_render _ _ _)]
  · intro ho
    rw [App.addWorkout_stored app _ xs hws ho, JSONstringify_arr]

/-- Witness of C5: a valid cycling form submitted in the empty session. -/
theorem App.newWorkout_append_and_snapshot_witness :
    ((App.start.showMap ⟨20, 20⟩).newWorkout ⟨"cycling", .fin 15, .fin 45, .fin 0, .fin 200⟩
        sampleClock).1 = .returned :=
  (App.newWorkout_append_and_snapshot (App.start.showMap ⟨20, 20⟩)
    ⟨"cycling", .fin 15, .fin 45, .fin 0, .fin 200⟩ sampleClock ⟨20, 20⟩ []
    rfl rfl (Or.inr rfl)
    ⟨⟨15, rfl, by norm_num⟩, ⟨45, rfl, by norm_num⟩,
      ⟨200, rfl, by norm_num⟩⟩).2.2.1 rfl

/-! ## Labels (C10) -/

/-- C10: when the month index of the creation date is below twelve, it selects a name of the
table January to December, and the description of a running record is exactly
"Running on " followed by that name, that of a cycling record "Cycling on " followed by it;
the table is the twelve month names in calendar order, so index 2 selects "March". -/
theorem description_by_month (clock : Clock) (ll : LatLng) (d t m : JSNum)
    (h : clock.date.month < 12) :
    ∃ name, months[clock.date.month]? = some name ∧
      (Running clock ll d t m).get? "description" = some (.str ("Running on " ++ name)) ∧
      (Cycling clock ll d t m).get? "description" = some (.str ("Cycling on " ++ name)) ∧
      (clock.date.month = 2 → name = "March") ∧
      months = ["January", "February", "March", "April", "May", "June", "July", "August",
        "September", "October", "November", "December"] := by
  obtain ⟨⟨time, month, isoText⟩, now⟩ := clock
  simp only at h ⊢
  interval_cases month <;> exact ⟨_, rfl, rfl, rfl, by decide, rfl⟩

/-- Witness of C10: a record created in March. -/
theorem description_by_month_witness :
    ∃ name, months[2]? = some name ∧
      (Running sampleClock ⟨10, 10⟩ (.fin 5) (.fin 25) (.fin 180)).get?
        "description" = some (.str ("Running on " ++ name)) ∧
      (Cycling sampleClock ⟨10, 10⟩ (.fin 5) (.fin 25) (.fin 180)).get?
        "description" = some (.str ("Cycling on " ++ name)) ∧
      ((2 : Nat) = 2 → name = "March") ∧
      months = ["January", "February", "March", "April", "May", "June", "July", "August",
        "September", "October", "November", "December"] :=
  description_by_month sampleClock ⟨10, 10⟩ (.fin 5) (.fin 25) (.fin 180)
    (by decide)

/-! ## Restore (C7) -/

/-- C7 (as amended): when the storage slot holds no snapshot, `#getLocalStorage` returns
without raising and leaves the application as it was; run at start-up, over the field
initialisers, it leaves `#workouts` empty. -/
theorem App.getLocalStorage_no_snapshot (app : App) (h : app.localStorage = none) :
    app.getLocalStorage = (.returned, app) ∧
    app.reload = (.returned, App.fresh none) ∧
    (App.fresh none).workouts = .arr [] := by
  refine ⟨?_, ?_, rfl⟩
  · unfold App.getLocalStorage
    rw [h]
    rfl
  · unfold App.reload
    rw [h]
    rfl

/-- Witness of C7 (as amended): the empty session, whose storage slot holds nothing. -/
theorem App.getLocalStorage_no_snapshot_witness :
    App.start.getLocalStorage = (.returned, App.start) ∧
    App.start.reload = (.returned, App.fresh none) ∧
    (App.fresh none).workouts = .arr [] :=
  App.getLocalStorage_no_snapshot App.start rfl

/-- C7 (counterexample): over a stored text that is not JSON, `#getLocalStorage` throws. -/
theorem App.getLocalStorage_malformed_throws :
    (App.fresh (some (.malformed "workouts"))).getLocalStorage.1 = .threw := by
  rfl

/-! ## Lookup (C9) -/

/-- A record returned by the lookup is an entry of the collection whose `id` is the given
one; otherwise the lookup yields `undefined`. -/
theorem findById_sound (xs : List JSVal) (id : String) (w : JSVal)
    (h : findById xs id = some w) :
    w = .undefined ∨ (w ∈ xs ∧ w.get? "id" = some (.str id)) := by
  induction xs with
  | nil =>
    left
    simpa [findById] using h.symm
  | cons x xs ih =>
    unfold findById at h
    cases hx : x.get? "id" with
    | none => simp [hx] at h
    | some v =>
      simp only [hx] at h
      split_ifs at h with hv
      · injection h with h
        subst h
        right
        refine ⟨List.mem_cons_self _ _, ?_⟩
        cases v <;> simp_all [JSVal.strictEqStr]
      · rcases ih h with h1 | ⟨h1, h2⟩
        · exact Or.inl h1
        · exact Or.inr ⟨List.mem_cons_of_mem _ h1, h2⟩

/-- C9: with the map loaded and a collection holding one record with id `8832000000`, a click
on a list entry whose `data-id` is `9999999999` finds no record, the lookup yields
`undefined`, and `#moveToPopup` throws on reading `workout.coords`; a click on the entry of
the record, and a click outside every entry, return normally.  Such a click arises when the
restored snapshot holds an entry whose `id` is the number 123: it is listed with the
`data-id` `123`, which no `id` equals strictly. -/
theorem App.moveToPopup_absent_id_throws :
    findById [sampleRunRecord] "9999999999" = some .undefined ∧
    (App.moveToPopup ⟨.arr [sampleRunRecord], true, none, none⟩ (some "9999999999")).1
      = .threw ∧
    findById [sampleRunRecord] "8832000000" = some sampleRunRecord ∧
    (App.moveToPopup ⟨.arr [sampleRunRecord], true, none, none⟩ (some "8832000000")).1
      = .returned ∧
    (App.moveToPopup ⟨.arr [sampleRunRecord], true, none, none⟩ none).1 = .returned ∧
    (App.fresh (some (.json (.arr [sampleForeign])))).getLocalStorage.1 = .returned ∧
    (App.fresh (some (.json (.arr [sampleForeign])))).getLocalStorage.2.loadMap.1
      = .returned ∧
    ((App.fresh (some (.json (.arr [sampleForeign])))).getLocalStorage.2.loadMap.2.moveToPopup
      (some "123")).1 = .threw := by
  refine ⟨?_, ?_, ?_, ?_, ?_, ?_, ?_, ?_⟩ <;> rfl

/-! ## Sessions -/

theorem Call.entry_known (c : Call) (hk : c.KnownKind) :
    c.entry = if validInputs [c.form.distance, c.form.duration, c.form.metric] then
      some (c.form.record c.clock c.latlng) else none := by
  unfold Call.entry FormInput.metric FormInput.record
  rcases hk with h | h
  · simp [h]
  · simp [h]

theorem App.createRecord_workouts (app : App) (c : Call) (xs : List JSVal)
    (h : app.workouts = .arr xs) :
    (app.createRecord c).2.workouts = .arr (xs ++ c.entry.toList) := by
  have hs : (app.showMap c.latlng).workouts = .arr xs := h
  unfold App.createRecord App.newWorkout Call.entry
  rw [show (app.showMap c.latlng).mapEvent = some c.latlng from rfl]
  dsimp only
  by_cases h1 : c.form.type = "running"
  · by_cases hv : validInputs [c.form.distance, c.form.duration, c.form.cadence] = true
    · simp [h1, hv, App.addWorkout_workouts _ _ xs hs]
    · simp [h1, hv, hs]
  · by_cases h2 : c.form.type = "cycling"
    · by_cases hv : validInputs [c.form.distance, c.form.duration, c.form.elevation] = true
      · simp [h2, hv, App.addWorkout_workouts _ _ xs hs]
      · simp [h2, hv, hs]
    · simp [h1, h2, App.addWorkout_workouts _ _ xs hs]

theorem App.runCalls_workouts (calls : List Call) :
    ∀ (app : App) (xs : List JSVal), app.workouts = .arr xs →
      (app.runCalls calls).workouts = .arr (xs ++ calls.filterMap Call.entry) := by
  induction calls with
  | nil => intro app xs h; simpa [App.runCalls] using h
  | cons c cs ih =>
    intro app xs h
    rw [App.runCalls, ih _ _ (App.createRecord_workouts app c xs h)]
    cases hc : c.entry <;> simp [List.filterMap_cons, hc]

theorem Call.entry_fresh (c : Call) (hk : c.KnownKind) (v : JSVal) (hv : c.entry = some v) :
    v.IsFreshRecord := by
  rw [Call.entry_known c hk] at hv
  split_ifs at hv with hval
  rw [validInputs_three] at hval
  obtain ⟨⟨d, hd, hd0⟩, ⟨t, ht, ht0⟩, ⟨m, hm, hm0⟩⟩ := hval
  injection hv with hv
  subst hv
  refine ⟨c.clock, c.latlng, d, t, m, hd0, ht0, hm0, ?_⟩
  unfold FormInput.record
  unfold FormInput.metric at hm
  split_ifs at hm ⊢ with hty
  · left; rw [hd, ht, hm]
  · right; rw [hd, ht, hm]

/-! ## Identifiers (C6) -/

theorem digitChar_toNat (k : Nat) (hk : k < 10) : (Nat.digitChar k).toNat - 48 = k := by
  interval_cases k <;> rfl

theorem foldl_toDigitsCore (fuel : Nat) :
    ∀ (n : Nat) (ds : List Char), n < fuel →
      (Nat.toDigitsCore 10 fuel n ds).foldl (fun acc c => acc * 10 + (c.toNat - 48)) 0
        = ds.foldl (fun acc c => acc * 10 + (c.toNat - 48)) n := by
  induction fuel with
  | zero => intro n ds h; omega
  | succ fuel ih =>
    intro n ds h
    have hd : (Nat.digitChar (n % 10)).toNat - 48 = n % 10 :=
      digitChar_toNat _ (Nat.mod_lt _ (by norm_num))
    unfold Nat.toDigitsCore
    dsimp only
    split_ifs with h0
    · have hn : n % 10 = n := Nat.mod_eq_of_lt (by omega)
      rw [hn] at hd
      simp only [List.foldl_cons, hn, hd, Nat.zero_mul, Nat.zero_add]
    · rw [ih (n / 10) _ (by omega)]
      simp only [List.foldl_cons, hd]
      congr 1
      omega

theorem decimalValue_toDigits (n : Nat) : decimalValue (Nat.toDigits 10 n) = n := by
  unfold decimalValue Nat.toDigits
  rw [foldl_toDigitsCore (n + 1) n [] (Nat.lt_succ_self n)]
  rfl

theorem foldl_decimal (q : List Char) :
    ∀ a : Nat, q.foldl (fun acc c => acc * 10 + (c.toNat - 48)) a
      = a * 10 ^ q.length + q.foldl (fun acc c => acc * 10 + (c.toNat - 48)) 0 := by
  induction q with
  | nil => intro a; simp
  | cons c q ih =>
    intro a
    simp only [List.foldl_cons, List.length_cons, Nat.zero_mul, Nat.zero_add]
    rw [ih (a * 10 + (c.toNat - 48)), ih (c.toNat - 48)]
    ring

theorem decimalValue_append (p q : List Char) :
    decimalValue (p ++ q) = decimalValue p * 10 ^ q.length + decimalValue q := by
  unfold decimalValue
  rw [List.foldl_append, foldl_decimal]

theorem Workout.id_data (n : Nat) :
    (Workout.id n).data = (Nat.toDigits 10 n).drop ((Nat.toDigits 10 n).length - 10) := by
  have h : (((Nat.toDigits 10 n).length : Int) + (-10)).toNat
      = (Nat.toDigits 10 n).length - 10 := by
    omega
  simp [Workout.id, jsSlice, numberToString, Nat.repr, List.asString, String.length, h]

/-- Equal identifiers come from clock readings that agree modulo `10 ^ 10`. -/
theorem Workout.id_mod (a b : Nat) (h : Workout.id a = Workout.id b) :
    a % 10 ^ 10 = b % 10 ^ 10 := by
  have hd := congrArg String.data h
  rw [Workout.id_data, Workout.id_data] at hd
  have ha := decimalValue_toDigits a
  have hb := decimalValue_toDigits b
  rw [← List.take_append_drop ((Nat.toDigits 10 a).length - 10) (Nat.toDigits 10 a),
    decimalValue_append] at ha
  rw [← List.take_append_drop ((Nat.toDigits 10 b).length - 10) (Nat.toDigits 10 b),
    decimalValue_append] at hb
  have hla := congrArg List.length hd
  simp only [List.length_drop] at hla ha hb
  by_cases hA : 10 ≤ (Nat.toDigits 10 a).length
  · have e1 : (Nat.toDigits 10 a).length - ((Nat.toDigits 10 a).length - 10) = 10 := by omega
    have e2 : (Nat.toDigits 10 b).length - ((Nat.toDigits 10 b).length - 10) = 10 := by omega
    rw [e1] at ha
    rw [e2] at hb
    rw [← ha, ← hb, hd]
    simp [Nat.add_comm, Nat.add_mul_mod_self_right]
  · have e1 : (Nat.toDigits 10 a).length - 10 = 0 := by omega
    have e2 : (Nat.toDigits 10 b).length - 10 = 0 := by omega
    rw [e1] at ha hd
    rw [e2] at hb hd
    simp only [List.take_zero, List.drop_zero] at ha hb hd
    rw [hd] at ha
    have : a = b := by
      simp only [decimalValue, List.foldl_nil, Nat.zero_mul, Nat.zero_add] at ha hb
      omega
    rw [this]

theorem Call.entry_id (c : Call) (v i : JSVal) (h : c.entry = some v)
    (hi : v.get? "id" = some i) : i = .str (Workout.id c.clock.now) := by
  unfold Call.entry at h
  split_ifs at h
  all_goals
    injection h with h
    subst h
    simp [Running, Cycling, Workout, JSVal.get?, List.lookup] at hi
    try exact hi.symm

theorem sampleRun_entry : sampleRun.entry = some sampleRunRecord := by
  simp [Call.entry, sampleRun, sampleRunRecord, validInputs, JSNum.isFinite, JSNum.gtZero]

theorem sampleRide_entry : sampleRide.entry = some sampleRideRecord := by
  simp [Call.entry, sampleRide, sampleRideRecord, validInputs, JSNum.isFinite, JSNum.gtZero]

/-- C6 (as amended): in the collection reached from the empty session by any sequence of
calls whose clock readings `Date.now()` are pairwise different modulo `10 ^ 10`, no two
entries carry the same `id`. -/
theorem App.runCalls_distinct_ids (calls : List Call)
    (h : calls.Pairwise (fun a b => a.clock.now % 10 ^ 10 ≠ b.clock.now % 10 ^ 10)) :
    ∃ xs, (App.start.runCalls calls).workouts = .arr xs ∧ xs.Pairwise JSVal.DistinctId := by
  refine ⟨_, App.runCalls_workouts calls App.start [] rfl, ?_⟩
  rw [List.nil_append]
  refine List.Pairwise.filterMap Call.entry ?_ h
  intro a b hab v hv w hw i j hi hj hij
  rw [Call.entry_id a v i hv hi, Call.entry_id b w j hw hj] at hij
  injection hij with hij
  exact hab (Workout.id_mod _ _ hij)

/-- Witness of C6 (as amended): two calls one millisecond apart. -/
theorem App.runCalls_distinct_ids_witness :
    ∃ xs, (App.start.runCalls [sampleRun, sampleRideLater]).workouts = .arr xs ∧
      xs.Pairwise JSVal.DistinctId :=
  App.runCalls_distinct_ids [sampleRun, sampleRideLater]
    (by simp [sampleRun, sampleRideLater, sampleClock])

/-- C6 (counterexample): two valid calls within the same millisecond, from the empty session,
leave a collection of two records that both carry the id `8832000000`. -/
theorem App.runCalls_same_millisecond_same_id :
    (App.start.runCalls [sampleRun, sampleRide]).workouts
      = .arr [sampleRunRecord, sampleRideRecord] ∧
    sampleRunRecord.get? "id" = some (.str "8832000000") ∧
    sampleRideRecord.get? "id" = some (.str "8832000000") ∧
    ¬ [sampleRunRecord, sampleRideRecord].Pairwise JSVal.DistinctId := by
  have h1 : sampleRunRecord.get? "id" = some (.str "8832000000") := rfl
  have h2 : sampleRideRecord.get? "id" = some (.str "8832000000") := rfl
  refine ⟨?_, h1, h2, ?_⟩
  · rw [App.runCalls_workouts _ App.start [] rfl]
    simp [List.filterMap_cons, sampleRun_entry, sampleRide_entry]
  · intro hp
    exact (List.pairwise_cons.1 hp).1 _ (List.mem_singleton_self _) _ _ h1 h2 rfl

/-! ## Validity of the entries (C8) and the round trip (C4) -/

theorem Running_toJSON (clock : Clock) (ll : LatLng) (d t m : ℚ) :
    (Running clock ll (.fin d) (.fin t) (.fin m)).toJSON = some (.obj
      [("date", .str clock.date.isoText),
       ("id", .str (Workout.id clock.now)),
       ("coords", .arr [.num (.fin ll.lat), .num (.fin ll.lng)]),
       ("distance", .num (.fin d)),
       ("duration", .num (.fin t)),
       ("type", .str "running"),
       ("cadence", .num (.fin m)),
       ("pace", if (Running.calcPace (.fin d) (.fin t)).isFinite
          then .num (Running.calcPace (.fin d) (.fin t)) else .null),
       ("description", .str (setDescription "running" clock.date))]) := by
  simp only [Running, Workout]
  generalize Running.calcPace (.fin d) (.fin t) = p
  cases p <;> simp [JSVal.toJSON, toJSONProps, toJSONElems, JSNum.isFinite]

theorem Cycling_toJSON (clock : Clock) (ll : LatLng) (d t m : ℚ) :
    (Cycling clock ll (.fin d) (.fin t) (.fin m)).toJSON = some (.obj
      [("date", .str clock.date.isoText),
       ("id", .str (Workout.id clock.now)),
       ("coords", .arr [.num (.fin ll.lat), .num (.fin ll.lng)]),
       ("distance", .num (.fin d)),
       ("duration", .num (.fin t)),
       ("type", .str "cycling"),
       ("elevation", .num (.fin m)),
       ("speed", if (Cycling.calcSpeed (.fin d) (.fin t)).isFinite
          then .num (Cycling.calcSpeed (.fin d) (.fin t)) else .null),
       ("description", .str (setDescription "cycling" clock.date))]) := by
  simp only [Cycling, Workout]
  generalize Cycling.calcSpeed (.fin d) (.fin t) = p
  cases p <;> simp [JSVal.toJSON, toJSONProps, toJSONElems, JSNum.isFinite]

/-- The serialisation of a constructed record is again a valid record, whatever its derived
metric. -/
theorem isValidRecord_toJSON_of_fresh {v : JSVal} (h : v.IsFreshRecord) :
    (v.toJSON.getD .null).IsValidRecord := by
  obtain ⟨clock, ll, d, t, m, hd, ht, hm, rfl | rfl⟩ := h
  · rw [Running_toJSON]
    exact ⟨d, t, m, hd, ht, hm, by simp [JSVal.get?, List.lookup],
      by simp [JSVal.get?, List.lookup], Or.inl (by simp [JSVal.get?, List.lookup])⟩
  · rw [Cycling_toJSON]
    exact ⟨d, t, m, hd, ht, hm, by simp [JSVal.get?, List.lookup],
      by simp [JSVal.get?, List.lookup], Or.inr (by simp [JSVal.get?, List.lookup])⟩

/-- A constructed record whose derived metric is finite is serialised property by property,
the date becoming its text, and the serialised entry can be rendered. -/
theorem toJSON_getD_fresh {v : JSVal} (h : v.IsFreshRecord) (hf : v.DerivedFinite) :
    v.RestoredFrom (v.toJSON.getD .null) ∧
      App.renderWorkout (v.toJSON.getD .null) = true := by
  obtain ⟨clock, ll, d, t, m, hd, ht, hm, rfl | rfl⟩ := h
  · have hq : ∃ q : ℚ, Running.calcPace (.fin d) (.fin t) = .fin q := by
      rcases hf with ⟨q, hq⟩ | ⟨q, hq⟩
      · exact ⟨q, by simpa [Running, Workout, JSVal.get?, List.lookup] using hq⟩
      · simp [Running, Workout, JSVal.get?, List.lookup] at hq
    obtain ⟨q, hq⟩ := hq
    rw [Running_toJSON, hq]
    refine ⟨⟨?_, clock.date, ?_, ?_⟩, ?_⟩
    · intro k hk
      have hk' : (k == "date") = false := by simpa using hk
      simp [Running, Workout, JSVal.get?, List.lookup, hk', hq, JSNum.isFinite]
    · simp [Running, Workout, JSVal.get?, List.lookup]
    · simp [JSVal.get?, List.lookup]
    · simp [App.renderWorkout, JSVal.get?, List.lookup, JSVal.strictEqStr, JSVal.hasToFixed,
        JSNum.isFinite]
  · have hq : ∃ q : ℚ, Cycling.calcSpeed (.fin d) (.fin t) = .fin q := by
      rcases hf with ⟨q, hq⟩ | ⟨q, hq⟩
      · simp [Cycling, Workout, JSVal.get?, List.lookup] at hq
      · exact ⟨q, by simpa [Cycling, Workout, JSVal.get?, List.lookup] using hq⟩
    obtain ⟨q, hq⟩ := hq
    rw [Cycling_toJSON, hq]
    refine ⟨⟨?_, clock.date, ?_, ?_⟩, ?_⟩
    · intro k hk
      have hk' : (k == "date") = false := by simpa using hk
      simp [Cycling, Workout, JSVal.get?, List.lookup, hk', hq, JSNum.isFinite]
    · simp [Cycling, Workout, JSVal.get?, List.lookup]
    · simp [JSVal.get?, List.lookup]
    · simp [App.renderWorkout, JSVal.get?, List.lookup, JSVal.strictEqStr, JSVal.hasToFixed,
        JSNum.isFinite]

theorem isValidRecord_of_fresh {v : JSVal} (h : v.IsFreshRecord) :
    v.IsValidRecord := by
  obtain ⟨clock, ll, d, t, m, hd, ht, hm, rfl | rfl⟩ := h
  · exact ⟨d, t, m, hd, ht, hm, by simp [Running, Workout, JSVal.get?, List.lookup],
      by simp [Running, Workout, JSVal.get?, List.lookup],
      Or.inl (by simp [Running, Workout, JSVal.get?, List.lookup])⟩
  · exact ⟨d, t, m, hd, ht, hm, by simp [Cycling, Workout, JSVal.get?, List.lookup],
      by simp [Cycling, Workout, JSVal.get?, List.lookup],
      Or.inr (by simp [Cycling, Workout, JSVal.get?, List.lookup])⟩

theorem App.createRecord_inSync (app : App) (c : Call) (hk : c.KnownKind)
    (h : app.InSync) : (app.createRecord c).2.InSync := by
  obtain ⟨hmap, xs, hxs, hst⟩ := h
  unfold App.createRecord
  rw [App.newWorkout_kind (app.showMap c.latlng) c.form c.clock c.latlng rfl hk]
  split_ifs with hv
  · rw [App.addWorkout_complete (app.showMap c.latlng) _ xs hxs hmap
      (FormInput.record_coords _ _ _) (FormInput.record_render _ _ _)]
    exact ⟨hmap, _, rfl, Or.inl rfl⟩
  · exact ⟨hmap, xs, hxs, hst⟩

theorem App.runCalls_inSync (calls : List Call) :
    ∀ app : App, (∀ c ∈ calls, c.KnownKind) → app.InSync →
      (app.runCalls calls).InSync := by
  induction calls with
  | nil => intro app _ h; exact h
  | cons c cs ih =>
    intro app hk h
    rw [App.runCalls]
    exact ih _ (fun c' hc' => hk c' (List.mem_cons_of_mem _ hc'))
      (App.createRecord_inSync app c (hk c (List.mem_cons_self _ _)) h)

theorem App.start_inSync : App.start.InSync :=
  ⟨rfl, [], rfl, Or.inr ⟨rfl, rfl⟩⟩

theorem App.runCalls_fresh (calls : List Call) (hk : ∀ c ∈ calls, c.KnownKind) :
    ∀ v ∈ calls.filterMap Call.entry, v.IsFreshRecord := by
  intro v hv
  obtain ⟨c, hc, hcv⟩ := List.mem_filterMap.1 hv
  exact Call.entry_fresh c (hk c hc) v hcv

/-- C8 (as amended): in the session reached from the empty one by any sequence of calls
whose type is running or cycling, whatever the numbers, every entry of `#workouts` is a
running or cycling record with finite, strictly positive distance, duration and metric, and
the stored snapshot, once one is written, lists as many entries, each of them such a
record. -/
theorem App.runCalls_valid_entries (calls : List Call) (hk : ∀ c ∈ calls, c.KnownKind) :
    ∃ xs, (App.start.runCalls calls).workouts = .arr xs ∧
      (∀ v ∈ xs, v.IsValidRecord) ∧
      ((xs = [] ∧ (App.start.runCalls calls).localStorage = none) ∨
        ∃ ys, (App.start.runCalls calls).localStorage = some (.json (.arr ys)) ∧
          ys.length = xs.length ∧ ∀ v ∈ ys, v.IsValidRecord) := by
  have hw := App.runCalls_workouts calls App.start [] rfl
  rw [List.nil_append] at hw
  have hf := App.runCalls_fresh calls hk
  obtain ⟨-, xs, hxs, hst⟩ := App.runCalls_inSync calls App.start hk App.start_inSync
  have hx : xs = calls.filterMap Call.entry := by
    rw [hxs] at hw
    injection hw
  subst hx
  refine ⟨_, hxs, fun v hv => isValidRecord_of_fresh (hf v hv), ?_⟩
  rcases hst with hst | hst
  · right
    rw [JSONstringify_arr] at hst
    refine ⟨_, hst, by simp, ?_⟩
    intro v hv
    obtain ⟨x, hx, rfl⟩ := List.mem_map.1 hv
    exact isValidRecord_toJSON_of_fresh (hf x hx)
  · exact Or.inl hst

/-- Witness of C8 (as amended): a running call followed by a cycling call. -/
theorem App.runCalls_valid_entries_witness :
    ∃ xs, (App.start.runCalls [sampleRun, sampleRideLater]).workouts = .arr xs ∧
      (∀ v ∈ xs, v.IsValidRecord) ∧
      ((xs = [] ∧ (App.start.runCalls [sampleRun, sampleRideLater]).localStorage = none) ∨
        ∃ ys, (App.start.runCalls [sampleRun, sampleRideLater]).localStorage
            = some (.json (.arr ys)) ∧
          ys.length = xs.length ∧ ∀ v ∈ ys, v.IsValidRecord) :=
  App.runCalls_valid_entries [sampleRun, sampleRideLater]
    (by
      intro c hc
      simp only [List.mem_cons, List.mem_singleton, List.mem_nil_iff, or_false] at hc
      rcases hc with rfl | rfl
      · exact Or.inl rfl
      · exact Or.inr rfl)

theorem JSVal.undefined_not_valid : ¬ JSVal.undefined.IsValidRecord := by
  rintro ⟨d, t, m, -, -, -, h, -⟩
  simp [JSVal.get?] at h

/-- C8 (counterexample): a form whose type is `swimming`, with valid numbers, submitted in the
empty session makes the handler append `undefined` and then throw; the collection then holds
an entry that is no record, and the next valid call writes it to the snapshot as `null`. -/
theorem App.createRecord_unknown_kind_appends_undefined :
    (App.start.createRecord sampleSwim).1 = .threw ∧
    (App.start.runCalls [sampleSwim]).workouts = .arr [.undefined] ∧
    ¬ JSVal.undefined.IsValidRecord ∧
    (App.start.runCalls [sampleSwim, sampleRun]).localStorage
      = some (.json (.arr [.null, sampleRunRestored])) := by
  have h1 : (App.start.createRecord sampleSwim)
      = (.threw, ⟨.arr [.undefined], true, some ⟨10, 10⟩, none⟩) := by
    simp [App.createRecord, App.newWorkout, App.showMap, App.start, sampleSwim,
      App.addWorkout, App.push, App.renderWorkoutMarker, JSVal.get?]
  refine ⟨by rw [h1], by rw [App.runCalls, App.runCalls, h1], JSVal.undefined_not_valid, ?_⟩
  rw [App.runCalls, App.runCalls, App.runCalls, h1]
  unfold App.createRecord
  rw [App.newWorkout_kind _ _ _ sampleRun.latlng rfl (Or.inl rfl),
    if_pos (by simp [sampleRun, FormInput.metric, validInputs, JSNum.isFinite, JSNum.gtZero]),
    App.addWorkout_complete _ _ [.undefined] rfl rfl (FormInput.record_coords _ _ _)
      (FormInput.record_render _ _ _)]
  simp [JSONstringify, JSVal.toJSON, toJSONElems, toJSONProps, sampleRunRestored,
    FormInput.record, sampleRun, Running, Workout, sampleClock, Running.calcPace,
    div_25_5]
  refine ⟨?_, ?_⟩
  · rfl
  · rfl

/-- C4 (as amended): for a collection reached from the empty session by calls of the two
kinds in which the pace or speed of every record is finite, writing the snapshot and
restoring from it in a new application returns normally and yields a collection of the same
length and order, in which each entry reads the same as the original for every property other
than `date` (derived ones included, none recomputed), while `date` is restored as the text
the `Date` object was serialised to. -/
theorem App.reload_restores_snapshot (calls : List Call) (xs : List JSVal)
    (hk : ∀ c ∈ calls, c.KnownKind)
    (hxs : (App.start.runCalls calls).workouts = .arr xs)
    (hfin : ∀ x ∈ xs, x.DerivedFinite) :
    ∃ ys r, (App.start.runCalls calls).setLocalStorage.reload = (.returned, r) ∧
      r.workouts = .arr ys ∧ ys.length = xs.length ∧
      List.Forall₂ JSVal.RestoredFrom xs ys := by
  have hw := App.runCalls_workouts calls App.start [] rfl
  rw [List.nil_append, hxs] at hw
  injection hw with hw
  have hf : ∀ v ∈ xs, v.IsFreshRecord := by
    rw [hw]
    exact App.runCalls_fresh calls hk
  have hall : (xs.map (fun x => x.toJSON.getD .null)).all App.renderWorkout = true := by
    rw [List.all_eq_true]
    intro v hv
    obtain ⟨x, hx, rfl⟩ := List.mem_map.1 hv
    exact (toJSON_getD_fresh (hf x hx) (hfin x hx)).2
  refine ⟨xs.map (fun x => x.toJSON.getD .null),
    ⟨.arr (xs.map (fun x => x.toJSON.getD .null)), false, none,
      some (JSONstringify (.arr xs))⟩, ?_, rfl, ?_, ?_⟩
  · unfold App.reload App.setLocalStorage App.getLocalStorage
    simp only [hxs, JSONstringify_arr, App.fresh, JSONparse, JSVal.truthy, hall]
    rfl
  · simp
  · rw [List.forall₂_map_right_iff, List.forall₂_same]
    intro x hx
    exact (toJSON_getD_fresh (hf x hx) (hfin x hx)).1

theorem sampleRideLater_entry : sampleRideLater.entry = some sampleRideLaterRecord := by
  simp [Call.entry, sampleRideLater, sampleRideLaterRecord, validInputs, JSNum.isFinite,
    JSNum.gtZero]

theorem sampleRunRecord_finite : sampleRunRecord.DerivedFinite :=
  Or.inl ⟨5, by
    simp [sampleRunRecord, Running, Workout, JSVal.get?, List.lookup, Running.calcPace,
      div_25_5]⟩

theorem sampleRideLaterRecord_finite : sampleRideLaterRecord.DerivedFinite :=
  Or.inr ⟨3202559735019019 / 576460752303423488, by
    have h : ((JSNum.fin 15).div (.fin 45)).div (.fin 60)
        = .fin (3202559735019019 / 576460752303423488) := by
      rw [JSNum.div_fin 15 45 (by norm_num), show (15 / 45 : ℚ) = 20 / 60 by norm_num,
        roundDouble_third, JSNum.div_fin _ 60 (by norm_num), roundDouble_speed]
    simp [sampleRideLaterRecord, Cycling, Workout, JSVal.get?, List.lookup,
      Cycling.calcSpeed, h]⟩

/-- Witness of C4 (as amended): the session with one running and one cycling record, of pace
5 and speed `15 / 45 / 60`. -/
theorem App.reload_restores_snapshot_witness :
    ∃ ys r, (App.start.runCalls [sampleRun, sampleRideLater]).setLocalStorage.reload
        = (.returned, r) ∧
      r.workouts = .arr ys ∧ ys.length = [sampleRunRecord, sampleRideLaterRecord].length ∧
      List.Forall₂ JSVal.RestoredFrom [sampleRunRecord, sampleRideLaterRecord] ys :=
  App.reload_restores_snapshot [sampleRun, sampleRideLater]
    [sampleRunRecord, sampleRideLaterRecord]
    (by
      intro c hc
      simp only [List.mem_cons, List.mem_singleton, List.mem_nil_iff, or_false] at hc
      rcases hc with rfl | rfl
      · exact Or.inl rfl
      · exact Or.inr rfl)
    (by
      rw [App.runCalls_workouts _ App.start [] rfl]
      simp [List.filterMap_cons, sampleRun_entry, sampleRideLater_entry])
    (by
      intro x hx
      simp only [List.mem_cons, List.mem_singleton, List.mem_nil_iff, or_false] at hx
      rcases hx with rfl | rfl
      · exact sampleRunRecord_finite
      · exact sampleRideLaterRecord_finite)

theorem sampleLong_entry : sampleLong.entry = some sampleLongRecord := by
  simp [Call.entry, sampleLong, sampleLongRecord, validInputs, JSNum.isFinite, JSNum.gtZero,
    maxDouble_pos]

theorem Running_get_pace (clock : Clock) (ll : LatLng) (d t c : JSNum) :
    (Running clock ll d t c).get? "pace" = some (.num (Running.calcPace d t)) := by
  simp [Running, Workout, JSVal.get?, List.lookup]

theorem sampleLong_pace : Running.calcPace (.fin (1 / 2)) (.fin maxDouble) = .posInf := by
  unfold Running.calcPace
  rw [JSNum.div_fin _ _ (by norm_num), roundDouble_overflow]

theorem sampleLongRecord_pace : sampleLongRecord.get? "pace" = some (.num .posInf) := by
  unfold sampleLongRecord
  rw [Running_get_pace, sampleLong_pace]

theorem sampleLongRecord_toJSON : sampleLongRecord.toJSON = some sampleLongRestored := by
  unfold sampleLongRecord
  rw [Running_toJSON, sampleLong_pace]
  rfl

theorem sampleLong_returns : (App.start.createRecord sampleLong).1 = .returned := by
  unfold App.createRecord
  rw [App.newWorkout_kind _ _ _ sampleLong.latlng rfl (Or.inl rfl),
    if_pos (by
      simp [sampleLong, FormInput.metric, validInputs, JSNum.isFinite, JSNum.gtZero,
        maxDouble_pos]),
    App.addWorkout_complete _ _ [] rfl rfl (FormInput.record_coords _ _ _)
      (FormInput.record_render _ _ _)]

theorem sampleLongRestored_render : App.renderWorkout sampleLongRestored = false := by
  simp [App.renderWorkout, sampleLongRestored, JSVal.get?, List.lookup, JSVal.strictEqStr,
    JSVal.hasToFixed]

/-- C4 (counterexample): after one running record is created in the empty session, the entry
restored from the snapshot has the text `2023-03-14T22:13:20.000Z` as its `date`, where the
original has a `Date` object: the two `date` values differ.  And after a valid running form
with distance 0.5 and duration `Number.MAX_VALUE`, which the handler accepts and completes,
the record has pace `Infinity`, the snapshot holds `null` in its place, and restoring from it
throws. -/
theorem App.reload_date_is_text :
    (App.start.runCalls [sampleRun]).workouts = .arr [sampleRunRecord] ∧
    ((App.start.runCalls [sampleRun]).setLocalStorage.reload).2.workouts
      = .arr [sampleRunRestored] ∧
    sampleRunRecord.get? "date" = some (.date sampleClock.date) ∧
    sampleRunRestored.get? "date" = some (.str "2023-03-14T22:13:20.000Z") ∧
    sampleRunRestored.get? "date" ≠ sampleRunRecord.get? "date" ∧
    (App.start.createRecord sampleLong).1 = .returned ∧
    (App.start.runCalls [sampleLong]).workouts = .arr [sampleLongRecord] ∧
    sampleLongRecord.get? "pace" = some (.num .posInf) ∧
    (App.start.runCalls [sampleLong]).setLocalStorage.reload
      = (.threw, ⟨.arr [sampleLongRestored], false, none,
          some (.json (.arr [sampleLongRestored]))⟩) ∧
    sampleLongRestored.get? "pace" = some .null := by
  have hw : (App.start.runCalls [sampleRun]).workouts = .arr [sampleRunRecord] := by
    rw [App.runCalls_workouts _ App.start [] rfl]
    simp [List.filterMap_cons, sampleRun_entry]
  have hj : sampleRunRecord.toJSON = some sampleRunRestored := by
    simp [JSVal.toJSON, toJSONElems, toJSONProps, sampleRunRestored, sampleRunRecord,
      Running, Workout, sampleClock, Running.calcPace, div_25_5]
    refine ⟨?_, ?_⟩
    · rfl
    · rfl
  have hd1 : sampleRunRecord.get? "date" = some (.date sampleClock.date) := rfl
  have hd2 : sampleRunRestored.get? "date" = some (.str "2023-03-14T22:13:20.000Z") := rfl
  have hwl : (App.start.runCalls [sampleLong]).workouts = .arr [sampleLongRecord] := by
    rw [App.runCalls_workouts _ App.start [] rfl]
    simp [List.filterMap_cons, sampleLong_entry]
  have hpn : sampleLongRestored.get? "pace" = some .null := by
    simp [sampleLongRestored, JSVal.get?, List.lookup]
  refine ⟨hw, ?_, hd1, hd2, ?_, sampleLong_returns, hwl, sampleLongRecord_pace, ?_, hpn⟩
  · unfold App.reload App.setLocalStorage App.getLocalStorage
    simp only [hw, JSONstringify_arr, App.fresh, JSONparse, JSVal.truthy, List.map_cons,
      List.map_nil, hj, Option.getD_some]
    have hr : App.renderWorkout sampleRunRestored = true := rfl
    simp [hr]
  · rw [hd1, hd2]
    simp
  · unfold App.reload App.setLocalStorage App.getLocalStorage
    simp only [hwl, JSONstringify_arr, App.fresh, JSONparse, JSVal.truthy, List.map_cons,
      List.map_nil, sampleLongRecord_toJSON, Option.getD_some]
    simp [sampleLongRestored_render]
